/-
  Verification of the ZedStore inspection module
  (src/backend/access/zedstore/zedstore_inspect.c).

  The file shallowly embeds the six SQL-callable inspection entry points:
  pg_zs_page_type, pg_zs_undo_pages, pg_zs_btree_pages, pg_zs_toast_pages,
  pg_zs_dump_attstreams and pg_zs_meta_page.  Pages are modelled at the
  level the C code reads them: a page carries its header free-space
  pointers (pd_lower, pd_upper, pd_special), the raw 16-bit tag stored in
  the last two bytes, one record per possible trailer ("special area")
  interpretation, and the item-area contents under each interpretation.
  The C code casts the special area to a kind-specific struct only after
  (or, for the undo walk, without) checking the page kind; modelling the
  four interpretations as independent fields mirrors that the casts are
  reads of raw bytes and makes no coherence assumption between them.

  Each entry point returns a pair: an Except value (ereport/elog ERROR is
  Except.error) and a trace of buffer-manager events
  (CHECK_FOR_INTERRUPTS, ReadBuffer, LockBuffer, UnlockReleaseBuffer,
  table_close), used to state the precondition-before-read and
  cancellation-polling properties.
-/
import Mathlib

namespace ZedStoreInspect

/-! ## Constants

PostgreSQL block-layout constants used by the module. -/

/-- Page size in bytes (PostgreSQL BLCKSZ, default build). -/
def BLCKSZ : Nat := 8192

/-- Size of the generic page header (SizeOfPageHeaderData). -/
def SizeOfPageHeaderData : Nat := 24

/-- InvalidBlockNumber, the chain terminator (0xFFFFFFFF). -/
def InvalidBlockNumber : Nat := 4294967295

/-- The metapage block number (ZS_META_BLK). -/
def ZS_META_BLK : Nat := 0

/-- Modelled from the spec: the page-kind tag constants ZS_META_PAGE_ID,
ZS_BTREE_PAGE_ID, ZS_UNDO_PAGE_ID, ZS_TOAST_PAGE_ID and ZS_FREE_PAGE_ID
come from the header access/zedstore_internal.h, which is not part of the
sources provided; the spec fixes only that META, BTREE, UNDO, TOAST and
FREE are the distinct 16-bit page-kind tags.  Concrete distinct 16-bit
values are used so that the definitions stay executable. -/
def ZS_META_PAGE_ID : Nat := 0xF083

/-- See ZS_META_PAGE_ID. -/
def ZS_BTREE_PAGE_ID : Nat := 0xF084

/-- See ZS_META_PAGE_ID. -/
def ZS_UNDO_PAGE_ID : Nat := 0xF085

/-- See ZS_META_PAGE_ID. -/
def ZS_TOAST_PAGE_ID : Nat := 0xF086

/-- See ZS_META_PAGE_ID. -/
def ZS_FREE_PAGE_ID : Nat := 0xF087

/-- Modelled from the spec: ZS_META_ATTRIBUTE_NUM, the sentinel attribute
number of the shared row-existence/meta B-tree ("attribute number (0 means
it is the shared row-existence/meta B-tree, not a real column)"). -/
def ZS_META_ATTRIBUTE_NUM : Nat := 0

/-- Modelled from the spec: the ATTSTREAM_COMPRESSED flag bit of an
attribute-stream header ("flags including is-compressed"), from the
missing header.  Only its role as the tested bit matters. -/
def ATTSTREAM_COMPRESSED : Nat := 1

/-- Modelled from the spec: SizeOfZSAttStreamHeader, the byte size of the
fixed attribute-stream header, from the missing header.  Only its role as
the threshold in the stream-presence tests matters. -/
def SizeOfZSAttStreamHeader : Nat := 16

/-- Modelled from the spec: MAXALIGN(sizeof(ZSBtreePageOpaque)), the
expected special-area size of a B-tree page.  The concrete value only
matters as the size compared against PageGetSpecialSize. -/
def alignedSizeOfZSBtreePageTrailer : Nat := 32

/-- Modelled from the spec: MAXALIGN(sizeof(ZSToastPageOpaque)). -/
def alignedSizeOfZSToastPageTrailer : Nat := 40

/-- Modelled from the spec: MAXALIGN(sizeof(ZSMetaPageOpaque)). -/
def alignedSizeOfZSMetaPageTrailer : Nat := 56

/-! ## Data model -/

/-- ZSUndoRecPtr: (counter, blkno, offset), identifying one undo record. -/
structure ZSUndoRecPtr where
  counter : Nat
  blkno : Nat
  offset : Nat
deriving DecidableEq

/-- The all-zero undo record pointer, C initializer {0, 0, 0}. -/
def zeroUndoPtr : ZSUndoRecPtr := ⟨0, 0, 0⟩

/-- ZSUndoRec, as far as the inspection code reads it: its byte size and
its self-describing pointer. -/
structure ZSUndoRec where
  size : Nat
  undorecptr : ZSUndoRecPtr
deriving DecidableEq

/-- Modelled from the spec: one chunk yielded by get_attstream_chunk_cont
of the attribute-stream decoder (zedstore_attstream.c is not among the
provided sources).  Per the spec a chunk carries the previous chunk's
last row id, its own first and last row ids, and its raw bytes; `len` is
the number of payload bytes the decoder consumes for it. -/
structure AttChunk where
  prevtid : Nat
  firsttid : Nat
  lasttid : Nat
  len : Nat
deriving DecidableEq

/-- ZSAttStream header fields read by the inspection code, plus the
decoded chunk sequence of its payload (see AttChunk). -/
structure ZSAttStream where
  t_flags : Nat
  t_size : Nat
  t_decompressed_size : Nat
  t_decompressed_bufsize : Nat
  t_lasttid : Nat
  chunks : List AttChunk
deriving DecidableEq

/-- The empty/blank attribute stream, used to populate absent streams. -/
def blankStream : ZSAttStream := ⟨0, 0, 0, 0, 0, []⟩

/-- ZSTidArrayItem as far as the inspection code reads it (t_size). -/
structure ZSTidArrayItem where
  t_size : Nat
deriving DecidableEq

/-- ZSUndoPageOpaque: the special area of an UNDO page (successor pointer
and page-kind tag). -/
structure ZSUndoPageTrailer where
  next : Nat
  zs_page_id : Nat
deriving DecidableEq

/-- ZSBtreePageOpaque: the special area of a B-tree page. -/
structure ZSBtreePageTrailer where
  zs_attno : Nat
  zs_level : Nat
  zs_next : Nat
  zs_lokey : Nat
  zs_hikey : Nat
  zs_page_id : Nat
deriving DecidableEq

/-- ZSToastPageOpaque: the special area of a toast page. -/
structure ZSToastPageTrailer where
  zs_tid : Nat
  zs_total_size : Nat
  zs_slice_offset : Nat
  zs_prev : Nat
  zs_next : Nat
  zs_decompressed_size : Nat
  zs_is_compressed : Bool
  zs_page_id : Nat
deriving DecidableEq

/-- ZSMetaPageOpaque: the special area of the metapage. -/
structure ZSMetaPageTrailer where
  zs_undo_head : Nat
  zs_undo_tail : Nat
  zs_undo_tail_first_counter : Nat
  zs_undo_oldestptr : ZSUndoRecPtr
  zs_fpm_head : Nat
  zs_flags : Nat
  zs_page_id : Nat
deriving DecidableEq

/-- A disk page, at the abstraction level the inspection code reads it:
the page-header free-space pointers, the raw 16-bit word stored in the
last two bytes of the page (read directly by pg_zs_page_type), the four
possible interpretations of the special area (the C code casts the
special pointer to the corresponding struct; the four fields model those
four casts of the same raw bytes independently), and the item-area
contents under each interpretation: the packed undo records, the
ZSTidArrayItem items of a meta-attribute leaf, the internal (key, child)
item count, and the two attribute streams that may overlay the lower and
upper parts of the item area of an attribute leaf. -/
structure Page where
  pd_lower : Nat
  pd_upper : Nat
  pd_special : Nat
  rawEndTag : Nat
  undoTrailer : ZSUndoPageTrailer
  btreeTrailer : ZSBtreePageTrailer
  toastTrailer : ZSToastPageTrailer
  metaTrailer : ZSMetaPageTrailer
  undoRecs : List ZSUndoRec
  tidItems : List ZSTidArrayItem
  nInternalItems : Nat
  lowerStream : ZSAttStream
  upperStream : ZSAttStream
deriving DecidableEq

/-- A page whose every field is zero/empty; witness pages are built by
updating it. -/
def blankPage : Page :=
  { pd_lower := 0, pd_upper := 0, pd_special := 0, rawEndTag := 0
    undoTrailer := ⟨0, 0⟩
    btreeTrailer := ⟨0, 0, 0, 0, 0, 0⟩
    toastTrailer := ⟨0, 0, 0, 0, 0, 0, false, 0⟩
    metaTrailer := ⟨0, 0, 0, zeroUndoPtr, 0, 0, 0⟩
    undoRecs := [], tidItems := [], nInternalItems := 0
    lowerStream := blankStream, upperStream := blankStream }

/-- A relation: its pages in block-number order, the
RELATION_IS_OTHER_TEMP flag, and the tuple descriptor's per-column
(attbyval, attlen) pairs used by pg_zs_dump_attstreams. -/
structure ZSRel where
  pages : List Page
  isOtherTemp : Bool
  atts : List (Bool × Int)
deriving DecidableEq

/-- Call context: whether the caller is superuser, and whether the call
site supports a materialized result set (the rsinfo/IsA/SFRM_Materialize
and composite-result-type checks, collapsed into one flag). -/
structure CallCtx where
  superuser : Bool
  setOK : Bool
deriving DecidableEq

/-- Errors raised (ereport/elog ERROR) by the inspection functions. -/
inductive ZSErr where
  | insufficientPrivilege
  | materializeRequired
  | otherTempTable
  | readFail (blkno : Nat)
  | badSpecialSize
  | badMetaPageId (found : Nat)
deriving DecidableEq

instance instDecEqExcept {ε α : Type} [DecidableEq ε] [DecidableEq α] :
    DecidableEq (Except ε α) := fun x y =>
  match x, y with
  | .ok a, .ok b =>
    if h : a = b then isTrue (congrArg Except.ok h)
    else isFalse (fun hc => h (Except.ok.inj hc))
  | .error a, .error b =>
    if h : a = b then isTrue (congrArg Except.error h)
    else isFalse (fun hc => h (Except.error.inj hc))
  | .ok _, .error _ => isFalse (fun hc => Except.noConfusion hc)
  | .error _, .ok _ => isFalse (fun hc => Except.noConfusion hc)

/-- Buffer-manager / miscadmin events, recorded in the order the C code
performs them: CHECK_FOR_INTERRUPTS, ReadBuffer, LockBuffer (mode
omitted), UnlockReleaseBuffer, table_close. -/
inductive Ev where
  | check
  | read (blkno : Nat)
  | lock (blkno : Nat)
  | unlock (blkno : Nat)
  | closeRel
deriving DecidableEq

/-- Whether a result is an ereport/elog ERROR. -/
def isErr {α : Type} : Except ZSErr α → Bool
  | .error _ => true
  | .ok _ => false

/-! ## Page primitives -/

/-- ReadBuffer(rel, blkno): the page at a block number, none when the
block is past the end of the relation (which ereports ERROR). -/
def pageAt (rel : ZSRel) (blkno : Nat) : Option Page :=
  rel.pages[blkno]?

/-- PageGetSpecialSize: the byte size of the special area,
BLCKSZ - pd_special. -/
def pageSpecialSize (p : Page) : Nat :=
  BLCKSZ - p.pd_special

/-- PageGetExactFreeSpace: pd_upper - pd_lower, clamped to 0 when the
pointers are inconsistent. -/
def pageFreeSpace (p : Page) : Nat :=
  if p.pd_lower ≤ p.pd_upper then p.pd_upper - p.pd_lower else 0

/-- C size_t conversion of a signed intermediate: the two subtractions in
the stream-presence tests are int arithmetic whose result is converted to
size_t (64-bit) by the comparison against sizeof(...); a negative value
wraps around. -/
def sizeT (x : Int) : Nat :=
  (x % (2 : Int) ^ 64).toNat

/-- Test `phdr->pd_lower - SizeOfPageHeaderData > SizeOfZSAttStreamHeader`:
an attribute stream starts at the header end of the item area. -/
def lowerStreamPresent (p : Page) : Bool :=
  decide (SizeOfZSAttStreamHeader <
    sizeT ((p.pd_lower : Int) - (SizeOfPageHeaderData : Int)))

/-- Test `phdr->pd_special - phdr->pd_upper > SizeOfZSAttStreamHeader`:
a second attribute stream starts at pd_upper. -/
def upperStreamPresent (p : Page) : Bool :=
  decide (SizeOfZSAttStreamHeader <
    sizeT ((p.pd_special : Int) - (p.pd_upper : Int)))

/-- The streams[] array built by the attribute-leaf code paths: the lower
stream when present, then the upper stream when present. -/
def presentStreams (p : Page) : List ZSAttStream :=
  (if lowerStreamPresent p then [p.lowerStream] else []) ++
    (if upperStreamPresent p then [p.upperStream] else [])

/-- Number of entries of streams[]; the attribute-leaf nitems counter of
pg_zs_btree_pages increments once per entry. -/
def nstreamsOf (p : Page) : Nat :=
  (presentStreams p).length

/-- Modelled from the spec: ZSBtreeInternalPageGetNumItems, from the
missing header; the number of (separator key, child pointer) items of an
internal page.  The page model carries the count directly. -/
def ZSBtreeInternalPageGetNumItems (p : Page) : Nat :=
  p.nInternalItems

/-! ## pg_zs_page_type -/

/-- The classification result of pg_zs_page_type: one of the five known
page kinds, or UNKNOWN carrying the raw tag value. -/
inductive ZSPageType where
  | meta
  | btree
  | undo
  | toast
  | free
  | unknown (tag : Nat)
deriving DecidableEq

/-- The switch statement of pg_zs_page_type over the 16-bit tag. -/
def classifyPageTag (tag : Nat) : ZSPageType :=
  if tag = ZS_META_PAGE_ID then .meta
  else if tag = ZS_BTREE_PAGE_ID then .btree
  else if tag = ZS_UNDO_PAGE_ID then .undo
  else if tag = ZS_TOAST_PAGE_ID then .toast
  else if tag = ZS_FREE_PAGE_ID then .free
  else .unknown tag

/-- One hexadecimal digit, lowercase, as printf %x produces. -/
def hexDigit (n : Nat) : Char :=
  if n < 10 then Char.ofNat (48 + n) else Char.ofNat (87 + n)

/-- printf "%04x" for a 16-bit value: four lowercase hex digits. -/
def hex4 (n : Nat) : String :=
  String.mk [hexDigit (n / 4096 % 16), hexDigit (n / 256 % 16),
    hexDigit (n / 16 % 16), hexDigit (n % 16)]

/-- The result string of pg_zs_page_type; the default branch is
psprintf("UNKNOWN 0x%04x", zs_page_id). -/
def pageTypeString : ZSPageType → String
  | .meta => "META"
  | .btree => "BTREE"
  | .undo => "UNDO"
  | .toast => "TOAST"
  | .free => "FREE"
  | .unknown tag => "UNKNOWN 0x" ++ hex4 tag

/-- The body of pg_zs_page_type after its checks, applied to the
ReadBuffer result: fetch the 16-bit word in the last two bytes, unlock,
close, classify. -/
def pageTypeStep (pageno : Nat) : Option Page → Except ZSErr String × List Ev
  | none => (.error (.readFail pageno), [Ev.read pageno])
  | some p =>
    (.ok (pageTypeString (classifyPageTag (p.rawEndTag % 65536))),
      [Ev.read pageno, Ev.lock pageno, Ev.unlock pageno, Ev.closeRel])

/-- pg_zs_page_type(relid, pageno): superuser check, open, other-temp
check, read and share-lock the page, fetch the 16-bit word in the last
two bytes, unlock, close, classify. -/
def pg_zs_page_type (ctx : CallCtx) (rel : ZSRel) (pageno : Nat) :
    Except ZSErr String × List Ev :=
  if ctx.superuser = false then (.error .insufficientPrivilege, [])
  else if rel.isOtherTemp then (.error .otherTempTable, [])
  else pageTypeStep pageno (pageAt rel pageno)

/-! ## pg_zs_undo_pages -/

/-- One result row of pg_zs_undo_pages:
(blkno, nrecords, freespace, firstrecptr, lastrecptr). -/
structure UndoRow where
  blkno : Nat
  nrecords : Nat
  freespace : Nat
  firstrecptr : Nat
  lastrecptr : Nat
deriving DecidableEq

/-- How the undo-chain walk of pg_zs_undo_pages ended: normally at
InvalidBlockNumber; aborted by the WARNING "unexpected page id on UNDO
page %u" (carrying that block number); or out of fuel (the C loop has no
cycle protection, so the Lean model bounds it by a fuel parameter). -/
inductive UndoStop where
  | done
  | badPage (blkno : Nat)
  | noFuel
deriving DecidableEq

/-- The inner record loop of pg_zs_undo_pages: starting at byte offset
`ptr` (initially SizeOfPageHeaderData) with the packed record sequence
`recs` in front of it, while ptr < endptr (endptr = pd_lower) take a
record, remember its pointer as lastptr (and as firstptr when it is the
first), count it, and advance ptr by its size.  The walk also stops when
the physically present records run out. -/
def undoRecScan : Nat → Nat → List ZSUndoRec → Nat → ZSUndoRecPtr →
    ZSUndoRecPtr → Nat × ZSUndoRecPtr × ZSUndoRecPtr
  | _, _, [], n, fp, lp => (n, fp, lp)
  | ptr, endptr, r :: rest, n, fp, lp =>
    if ptr < endptr then
      undoRecScan (ptr + r.size) endptr rest (n + 1)
        (if n = 0 then r.undorecptr else fp) r.undorecptr
    else (n, fp, lp)

/-- Prepend the row of the current undo page to the rows of the rest of
the walk; an error of the rest of the walk (a failed ReadBuffer, which
ereports ERROR and aborts the whole query) discards them. -/
def consRow (row : UndoRow) :
    Except ZSErr (List UndoRow × UndoStop) →
      Except ZSErr (List UndoRow × UndoStop)
  | .ok (rows, stop) => .ok (row :: rows, stop)
  | .error e => .error e

/-- One iteration of the undo-chain loop of pg_zs_undo_pages, applied to
the ReadBuffer result of the current block: check the trailer tag (on
mismatch: WARNING naming the block and break — the C code breaks before
UnlockReleaseBuffer, so no unlock event is recorded), scan the packed
records, emit the row (blkno, nrecords, PageGetExactFreeSpace,
firstptr.counter, lastptr.counter), continue at the trailer's successor
pointer. -/
def undoWalkStep (b : Nat)
    (walkNext : Nat → Except ZSErr (List UndoRow × UndoStop) × List Ev) :
    Option Page → Except ZSErr (List UndoRow × UndoStop) × List Ev
  | none => (.error (.readFail b), [Ev.check, Ev.read b])
  | some p =>
    if p.undoTrailer.zs_page_id ≠ ZS_UNDO_PAGE_ID then
      (.ok ([], .badPage b), [Ev.check, Ev.read b, Ev.lock b])
    else
      let s := undoRecScan SizeOfPageHeaderData p.pd_lower p.undoRecs 0
        zeroUndoPtr zeroUndoPtr
      let row : UndoRow :=
        ⟨b, s.1, pageFreeSpace p, s.2.1.counter, s.2.2.counter⟩
      let rest := walkNext p.undoTrailer.next
      (consRow row rest.1,
        [Ev.check, Ev.read b, Ev.lock b, Ev.unlock b] ++ rest.2)

/-- The undo-chain loop of pg_zs_undo_pages: from a block number, until
InvalidBlockNumber, perform undoWalkStep on each page (the C loop has no
cycle protection, so the model bounds it by a fuel parameter).  Returns
the emitted rows, how the walk ended, and the event trace; the
CHECK_FOR_INTERRUPTS of each iteration precedes its ReadBuffer. -/
def undoWalk (rel : ZSRel) : Nat → Nat →
    Except ZSErr (List UndoRow × UndoStop) × List Ev
  | 0, b =>
    if b = InvalidBlockNumber then (.ok ([], .done), [])
    else (.ok ([], .noFuel), [])
  | fuel' + 1, b =>
    if b = InvalidBlockNumber then (.ok ([], .done), [])
    else undoWalkStep b (undoWalk rel fuel') (pageAt rel b)

/-- The body of pg_zs_undo_pages after its checks, applied to the
ReadBuffer result of the metapage: share-lock it, fetch zs_undo_head,
unlock, walk the undo chain from it, close (an ERROR inside the walk
aborts before table_close). -/
def undoPagesStep (rel : ZSRel) (fuel : Nat) :
    Option Page → Except ZSErr (List UndoRow × UndoStop) × List Ev
  | none => (.error (.readFail ZS_META_BLK), [Ev.read ZS_META_BLK])
  | some meta =>
    let pre := [Ev.read ZS_META_BLK, Ev.lock ZS_META_BLK,
      Ev.unlock ZS_META_BLK]
    let rest := undoWalk rel fuel meta.metaTrailer.zs_undo_head
    if isErr rest.1 then (rest.1, pre ++ rest.2)
    else (rest.1, pre ++ rest.2 ++ [Ev.closeRel])

/-- pg_zs_undo_pages(relid): superuser and result-set checks, open,
other-temp check, read the metapage to get zs_undo_head, walk the undo
chain from it, close. -/
def pg_zs_undo_pages (ctx : CallCtx) (rel : ZSRel) (fuel : Nat) :
    Except ZSErr (List UndoRow × UndoStop) × List Ev :=
  if ctx.superuser = false then (.error .insufficientPrivilege, [])
  else if ctx.setOK = false then (.error .materializeRequired, [])
  else if rel.isOtherTemp then (.error .otherTempTable, [])
  else undoPagesStep rel fuel (pageAt rel ZS_META_BLK)

/-! ### Declarative description of the undo chain (spec side) -/

/-- One step of the spec-side undo chain: the current block's page must
exist and carry the UNDO tag; the chain continues at its successor. -/
def undoChainStep (b : Nat)
    (chainNext : Nat → Option (List (Nat × Page))) :
    Option Page → Option (List (Nat × Page))
  | none => none
  | some p =>
    if p.undoTrailer.zs_page_id = ZS_UNDO_PAGE_ID then
      (chainNext p.undoTrailer.next).map (fun rest => (b, p) :: rest)
    else none

/-- Spec-side description of the undo page chain: the list of
(block number, page) pairs reached from a head block by following each
undo page's successor pointer until InvalidBlockNumber, defined only when
every page on the chain exists, carries the UNDO tag, and is reached
within the fuel bound. -/
def undoChainPages (rel : ZSRel) : Nat → Nat → Option (List (Nat × Page))
  | 0, b => if b = InvalidBlockNumber then some [] else none
  | fuel' + 1, b =>
    if b = InvalidBlockNumber then some []
    else undoChainStep b (undoChainPages rel fuel') (pageAt rel b)

/-- Spec-side well-formedness of an undo page: per the spec, "records are
packed sequentially from the header end to the low-water mark" — the
record sizes are positive and fill the item area exactly up to pd_lower. -/
def wellPackedUndoPage (p : Page) : Prop :=
  SizeOfPageHeaderData + (p.undoRecs.map (fun r => r.size)).sum = p.pd_lower ∧
    ∀ r ∈ p.undoRecs, 0 < r.size

instance (p : Page) : Decidable (wellPackedUndoPage p) := by
  unfold wellPackedUndoPage; infer_instance

/-- Spec-side row for one undo page: block number, number of packed
records, exact free space, and the counters of the first and last packed
records (0 when the page holds no record, from the {0,0,0} initializers). -/
def undoPageRowOf (bp : Nat × Page) : UndoRow :=
  ⟨bp.1, bp.2.undoRecs.length, pageFreeSpace bp.2,
    ((bp.2.undoRecs.head?.map fun r => r.undorecptr.counter).getD 0),
    ((bp.2.undoRecs.getLast?.map fun r => r.undorecptr.counter).getD 0)⟩

/-! ## pg_zs_btree_pages -/

/-- One result row of pg_zs_btree_pages.  ncompressed, totalsz and
uncompressedsz are Option because the function sets their null flags on
internal pages. -/
structure BtreeRow where
  blkno : Nat
  nextblk : Nat
  attno : Nat
  level : Nat
  lokey : Nat
  hikey : Nat
  nitems : Nat
  ncompressed : Option Nat
  totalsz : Option Nat
  uncompressedsz : Option Nat
  freespace : Nat
deriving DecidableEq

/-- The attribute-leaf statistics loop of pg_zs_btree_pages over the
streams[] array: accumulates (nitems, ncompressed, totalsz,
uncompressedsz); nitems is incremented once per stream (the source
comment marks this as wrong: "We currently don't calculate the number of
items in the stream"). -/
def attrLeafStats (streams : List ZSAttStream) : Nat × Nat × Nat × Nat :=
  streams.foldl
    (fun acc s =>
      if s.t_flags.land ATTSTREAM_COMPRESSED ≠ 0 then
        (acc.1 + 1, acc.2.1 + 1, acc.2.2.1 + s.t_size,
          acc.2.2.2 + s.t_decompressed_size)
      else
        (acc.1 + 1, acc.2.1, acc.2.2.1 + s.t_size, acc.2.2.2 + s.t_size))
    (0, 0, 0, 0)

/-- The row pg_zs_btree_pages builds for a page that passed the B-tree
special-size and tag checks: trailer fields, the level/attno-dependent
statistics, and the exact free space.  On internal pages the three
leaf-only statistics get their null flags set. -/
def mkBtreeRow (blkno : Nat) (p : Page) : BtreeRow :=
  let op := p.btreeTrailer
  let stats :=
    if op.zs_level = 0 then
      if op.zs_attno = ZS_META_ATTRIBUTE_NUM then
        (p.tidItems.length, 0, (p.tidItems.map (fun it => it.t_size)).sum,
          (p.tidItems.map (fun it => it.t_size)).sum)
      else attrLeafStats (presentStreams p)
    else (ZSBtreeInternalPageGetNumItems p, 0, 0, 0)
  { blkno := blkno, nextblk := op.zs_next, attno := op.zs_attno,
    level := op.zs_level, lokey := op.zs_lokey, hikey := op.zs_hikey,
    nitems := stats.1,
    ncompressed := if op.zs_level = 0 then some stats.2.1 else none,
    totalsz := if op.zs_level = 0 then some stats.2.2.1 else none,
    uncompressedsz := if op.zs_level = 0 then some stats.2.2.2 else none,
    freespace := pageFreeSpace p }

/-- The B-tree page filter of pg_zs_btree_pages: the special area has the
B-tree size and the trailer carries the B-tree tag. -/
def isBtreePage (p : Page) : Prop :=
  pageSpecialSize p = alignedSizeOfZSBtreePageTrailer ∧
    p.btreeTrailer.zs_page_id = ZS_BTREE_PAGE_ID

instance (p : Page) : Decidable (isBtreePage p) := by
  unfold isBtreePage; infer_instance

/-- One iteration of the pg_zs_btree_pages block loop, applied to the
ReadBuffer result: poll for interrupts, read and lock the page, skip it
(continue) unless special size and tag match, otherwise build its row;
unlock. -/
def btreeVisitStep (b : Nat) : Option Page → Option BtreeRow × List Ev
  | none => (none, [Ev.check, Ev.read b])
  | some p =>
    let evs := [Ev.check, Ev.read b, Ev.lock b, Ev.unlock b]
    if pageSpecialSize p ≠ alignedSizeOfZSBtreePageTrailer then (none, evs)
    else if p.btreeTrailer.zs_page_id ≠ ZS_BTREE_PAGE_ID then (none, evs)
    else (some (mkBtreeRow b p), evs)

/-- One iteration of the pg_zs_btree_pages block loop. -/
def btreeVisit (rel : ZSRel) (b : Nat) : Option BtreeRow × List Ev :=
  btreeVisitStep b (pageAt rel b)

/-- The physical-order block loop shared by pg_zs_btree_pages and
pg_zs_toast_pages: visit each block, collect the rows of the visits that
produced one, concatenate their event traces. -/
def scanBlocks {ρ : Type} (visit : Nat → Option ρ × List Ev) :
    List Nat → List ρ × List Ev
  | [] => ([], [])
  | b :: rest =>
    let vr := visit b
    let tail := scanBlocks visit rest
    (vr.1.toList ++ tail.1, vr.2 ++ tail.2)

/-- The list of block numbers scanned by the full-relation loops:
`for (blkno = 1; blkno < nblocks; blkno++)`. -/
def scanRange (rel : ZSRel) : List Nat :=
  List.range' 1 (rel.pages.length - 1)

/-- The rows pg_zs_btree_pages materializes. -/
def btreeRows (rel : ZSRel) : List BtreeRow :=
  (scanRange rel).filterMap (fun b => (btreeVisit rel b).1)

/-- pg_zs_btree_pages(relid): superuser and result-set checks, open,
other-temp check, then scan all blocks from 1 in physical order, close. -/
def pg_zs_btree_pages (ctx : CallCtx) (rel : ZSRel) :
    Except ZSErr (List BtreeRow) × List Ev :=
  if ctx.superuser = false then (.error .insufficientPrivilege, [])
  else if ctx.setOK = false then (.error .materializeRequired, [])
  else if rel.isOtherTemp then (.error .otherTempTable, [])
  else
    let s := scanBlocks (btreeVisit rel) (scanRange rel)
    (.ok s.1, s.2 ++ [Ev.closeRel])

/-! ## pg_zs_toast_pages -/

/-- One result row of pg_zs_toast_pages.  When zs_tid is 0 the tid and
total_size slots keep their memset 0 value (their null flags are never
set). -/
structure ToastRow where
  blkno : Nat
  tid : Nat
  total_size : Nat
  slice_offset : Nat
  prev : Nat
  next : Nat
  decompressed_size : Nat
  is_compressed : Bool
deriving DecidableEq

/-- The toast page filter of pg_zs_toast_pages. -/
def isToastPage (p : Page) : Prop :=
  pageSpecialSize p = alignedSizeOfZSToastPageTrailer ∧
    p.toastTrailer.zs_page_id = ZS_TOAST_PAGE_ID

instance (p : Page) : Decidable (isToastPage p) := by
  unfold isToastPage; infer_instance

/-- The row pg_zs_toast_pages builds for a toast page. -/
def mkToastRow (blkno : Nat) (p : Page) : ToastRow :=
  let op := p.toastTrailer
  { blkno := blkno
    tid := if op.zs_tid ≠ 0 then op.zs_tid else 0
    total_size := if op.zs_tid ≠ 0 then op.zs_total_size else 0
    slice_offset := op.zs_slice_offset
    prev := op.zs_prev
    next := op.zs_next
    decompressed_size := op.zs_decompressed_size
    is_compressed := op.zs_is_compressed }

/-- One iteration of the pg_zs_toast_pages block loop, applied to the
ReadBuffer result. -/
def toastVisitStep (b : Nat) : Option Page → Option ToastRow × List Ev
  | none => (none, [Ev.check, Ev.read b])
  | some p =>
    let evs := [Ev.check, Ev.read b, Ev.lock b, Ev.unlock b]
    if pageSpecialSize p ≠ alignedSizeOfZSToastPageTrailer then (none, evs)
    else if p.toastTrailer.zs_page_id ≠ ZS_TOAST_PAGE_ID then (none, evs)
    else (some (mkToastRow b p), evs)

/-- One iteration of the pg_zs_toast_pages block loop. -/
def toastVisit (rel : ZSRel) (b : Nat) : Option ToastRow × List Ev :=
  toastVisitStep b (pageAt rel b)

/-- The rows pg_zs_toast_pages materializes. -/
def toastRows (rel : ZSRel) : List ToastRow :=
  (scanRange rel).filterMap (fun b => (toastVisit rel b).1)

/-- pg_zs_toast_pages(relid): superuser and result-set checks, open,
other-temp check, then scan all blocks from 1 in physical order, close. -/
def pg_zs_toast_pages (ctx : CallCtx) (rel : ZSRel) :
    Except ZSErr (List ToastRow) × List Ev :=
  if ctx.superuser = false then (.error .insufficientPrivilege, [])
  else if ctx.setOK = false then (.error .materializeRequired, [])
  else if rel.isOtherTemp then (.error .otherTempTable, [])
  else
    let s := scanBlocks (toastVisit rel) (scanRange rel)
    (.ok s.1, s.2 ++ [Ev.closeRel])

/-! ## pg_zs_dump_attstreams -/

/-- One result row of pg_zs_dump_attstreams (the raw chunk bytes of
values[11] are abstracted away; the chunk boundaries and tids are kept). -/
structure AttStreamChunkRow where
  attno : Nat
  chunkno : Nat
  upperstream : Bool
  compressed : Bool
  attbyval : Bool
  attlen : Int
  chunk_start : Nat
  chunk_len : Nat
  prevtid : Nat
  firsttid : Nat
  lasttid : Nat
deriving DecidableEq

/-- The chunk loop of pg_zs_dump_attstreams for one stream: one row per
decoded chunk, with chunkno counting from 0 and chunk_start/chunk_len
tracking the decoder position. -/
def dumpChunks (attno : Nat) (isUpper compressed attbyval : Bool)
    (attlen : Int) : Nat → Nat → List AttChunk → List AttStreamChunkRow
  | _, _, [] => []
  | chunkno, pos, c :: rest =>
    ⟨attno, chunkno, isUpper, compressed, attbyval, attlen, pos, c.len,
        c.prevtid, c.firsttid, c.lasttid⟩ ::
      dumpChunks attno isUpper compressed attbyval attlen (chunkno + 1)
        (pos + c.len) rest

/-- The streams[] array of pg_zs_dump_attstreams together with the flag
values[2] = (upperstream == i): the flag is true exactly on the stream
that starts at pd_upper.  (When only the lower stream exists the C
variable `upperstream` is never assigned; the model takes the flag as
false there.) -/
def streamsWithUpperFlag (p : Page) : List (ZSAttStream × Bool) :=
  (if lowerStreamPresent p then [(p.lowerStream, false)] else []) ++
    (if upperStreamPresent p then [(p.upperStream, true)] else [])

/-- The full page condition under which pg_zs_dump_attstreams dumps a
page: B-tree special size and tag, a real attribute (not the meta
B-tree), and a leaf (level 0). -/
def isAttLeafPage (p : Page) : Prop :=
  pageSpecialSize p = alignedSizeOfZSBtreePageTrailer ∧
    p.btreeTrailer.zs_page_id = ZS_BTREE_PAGE_ID ∧
    p.btreeTrailer.zs_attno ≠ ZS_META_ATTRIBUTE_NUM ∧
    p.btreeTrailer.zs_level = 0

instance (p : Page) : Decidable (isAttLeafPage p) := by
  unfold isAttLeafPage; infer_instance

/-- The body of pg_zs_dump_attstreams applied to the ReadBuffer result:
poll for interrupts, read and lock the page.  If the page is not an
attribute-leaf B-tree page (wrong special size, wrong tag, the
meta-attribute tree, or an internal page) it unlocks, closes and returns
SQL NULL (Option.none); otherwise it dumps every chunk of every present
stream, unlocks and closes. -/
def dumpAttStreamsStep (rel : ZSRel) (blkno : Nat) :
    Option Page → Except ZSErr (Option (List AttStreamChunkRow)) × List Ev
  | none => (.error (.readFail blkno), [Ev.check, Ev.read blkno])
  | some p =>
    let evs := [Ev.check, Ev.read blkno, Ev.lock blkno, Ev.unlock blkno,
      Ev.closeRel]
    if pageSpecialSize p ≠ alignedSizeOfZSBtreePageTrailer then
      (.ok none, evs)
    else if p.btreeTrailer.zs_page_id ≠ ZS_BTREE_PAGE_ID ∨
        p.btreeTrailer.zs_attno = ZS_META_ATTRIBUTE_NUM ∨
        p.btreeTrailer.zs_level ≠ 0 then
      (.ok none, evs)
    else
      let att := rel.atts.getD (p.btreeTrailer.zs_attno - 1) (false, 0)
      let rows := (streamsWithUpperFlag p).flatMap
        (fun sb =>
          dumpChunks p.btreeTrailer.zs_attno sb.2
            (sb.1.t_flags.land ATTSTREAM_COMPRESSED ≠ 0) att.1 att.2 0 0
            sb.1.chunks)
      (.ok (some rows), evs)

/-- pg_zs_dump_attstreams: see dumpAttStreamsStep for the body. -/
def pg_zs_dump_attstreams (ctx : CallCtx) (rel : ZSRel) (blkno : Nat) :
    Except ZSErr (Option (List AttStreamChunkRow)) × List Ev :=
  if ctx.superuser = false then (.error .insufficientPrivilege, [])
  else if ctx.setOK = false then (.error .materializeRequired, [])
  else if rel.isOtherTemp then (.error .otherTempTable, [])
  else dumpAttStreamsStep rel blkno (pageAt rel blkno)

/-! ## pg_zs_meta_page -/

/-- The result tuple of pg_zs_meta_page. -/
structure MetaRow where
  blkno : Nat
  zs_undo_head : Nat
  zs_undo_tail : Nat
  zs_undo_tail_first_counter : Nat
  undo_oldestptr_counter : Nat
  undo_oldestptr_blkno : Nat
  undo_oldestptr_offset : Nat
  zs_fpm_head : Nat
  zs_flags : Nat
deriving DecidableEq

/-- The body of pg_zs_meta_page applied to the ReadBuffer result of
page 0, after read and lock.  On a special area of the wrong size:
elog(ERROR, "Bad page special size") — an error that does not carry the
tag.  On the right size but the wrong tag: elog(ERROR, "The zs_page_id
does not match ZS_META_PAGE_ID. Got: %d"), reporting the found tag.
Otherwise the metapage trailer tuple. -/
def metaPageStep : Option Page → Except ZSErr MetaRow × List Ev
  | none => (.error (.readFail ZS_META_BLK), [Ev.check, Ev.read ZS_META_BLK])
  | some p =>
      if pageSpecialSize p ≠ alignedSizeOfZSMetaPageTrailer then
        (.error .badSpecialSize,
          [Ev.check, Ev.read ZS_META_BLK, Ev.lock ZS_META_BLK,
            Ev.unlock ZS_META_BLK])
      else if p.metaTrailer.zs_page_id ≠ ZS_META_PAGE_ID then
        (.error (.badMetaPageId p.metaTrailer.zs_page_id),
          [Ev.check, Ev.read ZS_META_BLK, Ev.lock ZS_META_BLK,
            Ev.unlock ZS_META_BLK])
      else
        (.ok
          { blkno := ZS_META_BLK
            zs_undo_head := p.metaTrailer.zs_undo_head
            zs_undo_tail := p.metaTrailer.zs_undo_tail
            zs_undo_tail_first_counter :=
              p.metaTrailer.zs_undo_tail_first_counter
            undo_oldestptr_counter := p.metaTrailer.zs_undo_oldestptr.counter
            undo_oldestptr_blkno := p.metaTrailer.zs_undo_oldestptr.blkno
            undo_oldestptr_offset := p.metaTrailer.zs_undo_oldestptr.offset
            zs_fpm_head := p.metaTrailer.zs_fpm_head
            zs_flags := p.metaTrailer.zs_flags },
          [Ev.check, Ev.read ZS_META_BLK, Ev.lock ZS_META_BLK,
            Ev.unlock ZS_META_BLK, Ev.closeRel])

/-- pg_zs_meta_page(relid): superuser and result-set checks, poll for
interrupts, open, other-temp check, then metaPageStep on page 0. -/
def pg_zs_meta_page (ctx : CallCtx) (rel : ZSRel) :
    Except ZSErr MetaRow × List Ev :=
  if ctx.superuser = false then (.error .insufficientPrivilege, [])
  else if ctx.setOK = false then (.error .materializeRequired, [])
  else if rel.isOtherTemp then (.error .otherTempTable, [Ev.check])
  else metaPageStep (pageAt rel ZS_META_BLK)

/-- Whether a pg_zs_meta_page error reports the tag found in the trailer
(the claimed behavior on any trailer mismatch). -/
def errReportsTag : Except ZSErr MetaRow → Bool
  | .error (.badMetaPageId _) => true
  | _ => false

/-! ## Trace predicates -/

/-- Whether an event is a ReadBuffer. -/
def isReadEv : Ev → Bool
  | .read _ => true
  | _ => false

/-- Whether an event is a CHECK_FOR_INTERRUPTS. -/
def isCheckEv : Ev → Bool
  | .check => true
  | _ => false

/-- Whether a trace contains any page read. -/
def hasRead (t : List Ev) : Bool :=
  t.any isReadEv

/-- Lock accounting: a LockBuffer pushes the block, an UnlockReleaseBuffer
removes one occurrence of it. -/
def locksStep (held : List Nat) : Ev → List Nat
  | .lock b => b :: held
  | .unlock b => held.erase b
  | _ => held

/-- Every CHECK_FOR_INTERRUPTS in the trace happens while the set of held
page locks (starting from `held`) is empty. -/
def checksLockFree (held : List Nat) : List Ev → Bool
  | [] => true
  | e :: rest =>
    (if isCheckEv e then held.isEmpty else true) &&
      checksLockFree (locksStep held e) rest

/-- No event of the tail is a ReadBuffer unless the event right before it
is a CHECK_FOR_INTERRUPTS; `prev` is the preceding event. -/
def noReadAfter (prev : Ev) : List Ev → Bool
  | [] => true
  | e :: rest => (if isReadEv e then isCheckEv prev else true) &&
      noReadAfter e rest

/-- Every ReadBuffer in the trace is immediately preceded by a
CHECK_FOR_INTERRUPTS (in particular the trace does not start with one). -/
def readsAfterCheck : List Ev → Bool
  | [] => true
  | e :: rest => !isReadEv e && noReadAfter e rest

/-! ## Concrete witness relation -/

/-- Witness metapage (block 0): undo head/tail at block 2. -/
def page0W : Page :=
  { blankPage with
    pd_lower := 24, pd_upper := 8136, pd_special := 8136
    rawEndTag := ZS_META_PAGE_ID
    metaTrailer := ⟨2, 2, 100, ⟨100, 2, 24⟩, InvalidBlockNumber, 0,
      ZS_META_PAGE_ID⟩ }

/-- Witness attribute-leaf B-tree page (block 1): attno 1, level 0, one
uncompressed lower stream, no upper stream. -/
def page1W : Page :=
  { blankPage with
    pd_lower := 74, pd_upper := 8150, pd_special := 8160
    rawEndTag := ZS_BTREE_PAGE_ID
    btreeTrailer := ⟨1, 0, InvalidBlockNumber, 1, 1000, ZS_BTREE_PAGE_ID⟩
    lowerStream := ⟨0, 50, 50, 50, 10, [⟨0, 1, 10, 30⟩]⟩ }

/-- Witness undo page (block 2): two packed records of sizes 40 and 60
filling the item area from offset 24 to pd_lower = 124. -/
def page2W : Page :=
  { blankPage with
    pd_lower := 124, pd_upper := 8100, pd_special := 8176
    rawEndTag := ZS_UNDO_PAGE_ID
    undoTrailer := ⟨InvalidBlockNumber, ZS_UNDO_PAGE_ID⟩
    undoRecs := [⟨40, ⟨100, 2, 24⟩⟩, ⟨60, ⟨101, 2, 64⟩⟩] }

/-- Witness internal B-tree page (block 3): attno 1, level 1, three
internal items. -/
def page3W : Page :=
  { blankPage with
    pd_lower := 100, pd_upper := 8000, pd_special := 8160
    rawEndTag := ZS_BTREE_PAGE_ID
    btreeTrailer := ⟨1, 1, InvalidBlockNumber, 1, 2000, ZS_BTREE_PAGE_ID⟩
    nInternalItems := 3 }

/-- Witness toast page (block 4). -/
def page4W : Page :=
  { blankPage with
    pd_lower := 24, pd_upper := 8152, pd_special := 8152
    rawEndTag := ZS_TOAST_PAGE_ID
    toastTrailer := ⟨5, 10000, 0, InvalidBlockNumber, InvalidBlockNumber,
      4000, true, ZS_TOAST_PAGE_ID⟩ }

/-- Witness free page (block 5): special size 8, matching no known
trailer. -/
def page5W : Page :=
  { blankPage with
    pd_lower := 24, pd_upper := 8184, pd_special := 8184
    rawEndTag := ZS_FREE_PAGE_ID }

/-- Witness meta-attribute leaf page (block 6): attno 0 (the
row-existence tree), level 0, two ZSTidArrayItem items. -/
def page6W : Page :=
  { blankPage with
    pd_lower := 60, pd_upper := 8100, pd_special := 8160
    rawEndTag := ZS_BTREE_PAGE_ID
    btreeTrailer := ⟨ZS_META_ATTRIBUTE_NUM, 0, InvalidBlockNumber, 1, 500,
      ZS_BTREE_PAGE_ID⟩
    tidItems := [⟨12⟩, ⟨20⟩] }

/-- The witness relation: metapage, attribute leaf, undo page, internal
page, toast page, free page, meta-attribute leaf; one by-value column of
length 4. -/
def relW : ZSRel :=
  { pages := [page0W, page1W, page2W, page3W, page4W, page5W, page6W]
    isOtherTemp := false
    atts := [(true, 4)] }

/-- Superuser call context with a materialize-capable call site. -/
def ctxW : CallCtx := ⟨true, true⟩

/-- Non-superuser call context. -/
def ctxNoSU : CallCtx := ⟨false, true⟩

/-- A metapage whose special area has the wrong size (16 bytes instead
of the metapage trailer size) though it carries the META tag. -/
def pageBadMetaW : Page :=
  { blankPage with
    pd_lower := 24, pd_upper := 8176, pd_special := 8176
    rawEndTag := ZS_META_PAGE_ID
    metaTrailer := ⟨0, 0, 0, zeroUndoPtr, 0, 0, ZS_META_PAGE_ID⟩ }

/-- A relation whose page 0 is pageBadMetaW. -/
def relBadMeta : ZSRel :=
  { pages := [pageBadMetaW]
    isOtherTemp := false
    atts := [] }

/-- The page p with the decoded chunk sequences of both its attribute
streams replaced; every header field read by pg_zs_btree_pages is kept.
Used to state that the reported leaf item count is independent of what
the streams encode. -/
def withStreamChunks (p : Page) (c1 c2 : List AttChunk) : Page :=
  { p with
    lowerStream := { p.lowerStream with chunks := c1 }
    upperStream := { p.upperStream with chunks := c2 } }

/-! ## Helper lemmas -/

theorem attrLeafStats_aux (l : List ZSAttStream) :
    ∀ a : Nat × Nat × Nat × Nat,
      (l.foldl
        (fun acc s =>
          if s.t_flags.land ATTSTREAM_COMPRESSED ≠ 0 then
            (acc.1 + 1, acc.2.1 + 1, acc.2.2.1 + s.t_size,
              acc.2.2.2 + s.t_decompressed_size)
          else
            (acc.1 + 1, acc.2.1, acc.2.2.1 + s.t_size, acc.2.2.2 + s.t_size))
        a).1 = a.1 + l.length := by
  induction l with
  | nil => intro a; simp
  | cons s rest ih =>
    intro a
    simp only [List.foldl_cons]
    rw [ih]
    by_cases h : s.t_flags.land ATTSTREAM_COMPRESSED ≠ 0 <;>
      simp [h] <;> omega

/-- The nitems counter of the attribute-leaf statistics loop counts one
per stream, whatever the streams hold. -/
theorem attrLeafStats_fst (l : List ZSAttStream) :
    (attrLeafStats l).1 = l.length := by
  unfold attrLeafStats
  rw [attrLeafStats_aux]
  simp

/-- The record loop consumes exactly the packed record list when the
sizes are positive and fill the area up to endptr, and reports the count
and the first and last record pointers. -/
theorem undoRecScan_spec (recs : List ZSUndoRec) :
    ∀ (ptr endptr n : Nat) (fp lp : ZSUndoRecPtr),
      ptr + (recs.map (fun r => r.size)).sum = endptr →
      (∀ r ∈ recs, 0 < r.size) →
      undoRecScan ptr endptr recs n fp lp =
        (n + recs.length,
          (match recs with
           | [] => fp
           | r :: _ => if n = 0 then r.undorecptr else fp),
          (match recs.getLast? with
           | none => lp
           | some r => r.undorecptr)) := by
  induction recs with
  | nil =>
    intro ptr endptr n fp lp _ _
    simp [undoRecScan]
  | cons r rest ih =>
    intro ptr endptr n fp lp h hpos
    have hsz : 0 < r.size := hpos r (List.mem_cons_self r rest)
    have hsum : ptr + r.size + (rest.map (fun x => x.size)).sum = endptr := by
      simp only [List.map_cons, List.sum_cons] at h
      omega
    have hlt : ptr < endptr := by omega
    rw [undoRecScan, if_pos hlt]
    rw [ih (ptr + r.size) endptr (n + 1) _ r.undorecptr hsum
      (fun x hx => hpos x (List.mem_cons_of_mem _ hx))]
    cases rest with
    | nil => simp
    | cons r2 rest2 =>
      simp only [Prod.mk.injEq, List.length_cons, List.getLast?_cons_cons]
      refine ⟨by omega, ?_, rfl⟩
      simp

/-- The undo-chain walk, on a chain that exists, carries the UNDO tag
throughout and is well packed, terminates normally and emits exactly the
spec-side row of every chain page, in chain order. -/
theorem undoWalk_chain (rel : ZSRel) (fuel : Nat) :
    ∀ (b : Nat) (chain : List (Nat × Page)),
      undoChainPages rel fuel b = some chain →
      (∀ bp ∈ chain, wellPackedUndoPage bp.2) →
      (undoWalk rel fuel b).1 = .ok (chain.map undoPageRowOf, .done) := by
  induction fuel with
  | zero =>
    intro b chain hch _
    rw [undoChainPages] at hch
    by_cases hb : b = InvalidBlockNumber
    · simp only [if_pos hb, Option.some.injEq] at hch
      rw [undoWalk, if_pos hb]
      simp [← hch]
    · simp [if_neg hb] at hch
  | succ f ih =>
    intro b chain hch hwf
    rw [undoChainPages] at hch
    by_cases hb : b = InvalidBlockNumber
    · simp only [if_pos hb, Option.some.injEq] at hch
      rw [undoWalk, if_pos hb]
      simp [← hch]
    · rw [if_neg hb] at hch
      cases hp : pageAt rel b with
      | none => rw [hp] at hch; simp [undoChainStep] at hch
      | some p =>
        rw [hp] at hch
        simp only [undoChainStep] at hch
        by_cases htag : p.undoTrailer.zs_page_id = ZS_UNDO_PAGE_ID
        · rw [if_pos htag] at hch
          cases hrest : undoChainPages rel f p.undoTrailer.next with
          | none => rw [hrest] at hch; simp at hch
          | some rest =>
            rw [hrest] at hch
            simp only [Option.map_some', Option.some.injEq] at hch
            have hwfp : wellPackedUndoPage p := by
              have := hwf (b, p)
              rw [← hch] at this
              exact this (List.mem_cons_self _ _)
            have hwfrest : ∀ bp ∈ rest, wellPackedUndoPage bp.2 := by
              intro bp hbp
              have := hwf bp
              rw [← hch] at this
              exact this (List.mem_cons_of_mem _ hbp)
            have ihres := ih p.undoTrailer.next rest hrest hwfrest
            rw [undoWalk, if_neg hb, hp]
            simp only [undoWalkStep]
            rw [if_neg (by simpa using htag)]
            simp only [ihres, consRow, ← hch, List.map_cons,
              Except.ok.injEq, Prod.mk.injEq, List.cons.injEq, and_true,
              true_and]
            -- the emitted row equals the spec-side row of (b, p)
            rw [undoRecScan_spec p.undoRecs SizeOfPageHeaderData
              p.pd_lower 0 zeroUndoPtr zeroUndoPtr hwfp.1 hwfp.2]
            cases hrecs : p.undoRecs with
            | nil => simp [undoPageRowOf, hrecs, zeroUndoPtr]
            | cons r0 rrest =>
              simp only [undoPageRowOf, hrecs]
              cases hlast : (r0 :: rrest).getLast? with
              | none => simp at hlast
              | some rl => simp [hlast, List.head?_cons]
        · rw [if_neg htag] at hch
          simp at hch

/-! ### Trace lemmas -/

theorem noReadAfter_of_readsAfterCheck (prev : Ev) (t : List Ev)
    (h : readsAfterCheck t = true) : noReadAfter prev t = true := by
  cases t with
  | nil => rfl
  | cons e rest =>
    simp only [readsAfterCheck, Bool.and_eq_true] at h
    have h1 : isReadEv e = false := by
      cases hre : isReadEv e
      · rfl
      · rw [hre] at h; simp at h
    simp [noReadAfter, h1, h.2]

theorem noReadAfter_append_close (prev : Ev) (t : List Ev)
    (h : noReadAfter prev t = true) :
    noReadAfter prev (t ++ [Ev.closeRel]) = true := by
  induction t generalizing prev with
  | nil => simp [noReadAfter, isReadEv]
  | cons e rest ih =>
    simp only [List.cons_append, noReadAfter, Bool.and_eq_true] at h ⊢
    exact ⟨h.1, ih e h.2⟩

theorem readsAfterCheck_append_close (t : List Ev)
    (h : readsAfterCheck t = true) :
    readsAfterCheck (t ++ [Ev.closeRel]) = true := by
  cases t with
  | nil => simp [readsAfterCheck, noReadAfter, isReadEv]
  | cons e rest =>
    simp only [List.cons_append, readsAfterCheck, Bool.and_eq_true] at h ⊢
    exact ⟨h.1, noReadAfter_append_close e rest h.2⟩

theorem checksLockFree_append (t u : List Ev) :
    ∀ held, checksLockFree held t = true →
      checksLockFree (t.foldl locksStep held) u = true →
      checksLockFree held (t ++ u) = true := by
  induction t with
  | nil =>
    intro held _ h2
    simpa using h2
  | cons e rest ih =>
    intro held h1 h2
    simp only [checksLockFree, Bool.and_eq_true] at h1
    simp only [List.foldl_cons] at h2
    simp only [List.cons_append, checksLockFree, Bool.and_eq_true]
    exact ⟨h1.1, ih _ h1.2 h2⟩

theorem checksLockFree_close (held : List Nat) :
    checksLockFree held [Ev.closeRel] = true := by
  simp [checksLockFree, isCheckEv, locksStep]

/-- Every CHECK_FOR_INTERRUPTS of the undo-chain walk happens with no
page lock held, and every ReadBuffer of the walk is immediately preceded
by a CHECK_FOR_INTERRUPTS. -/
theorem undoWalk_trace (rel : ZSRel) (fuel : Nat) : ∀ b,
    readsAfterCheck (undoWalk rel fuel b).2 = true ∧
      checksLockFree [] (undoWalk rel fuel b).2 = true := by
  induction fuel with
  | zero =>
    intro b
    rw [undoWalk]
    by_cases hb : b = InvalidBlockNumber <;>
      simp [hb, readsAfterCheck, checksLockFree]
  | succ f ih =>
    intro b
    rw [undoWalk]
    by_cases hb : b = InvalidBlockNumber
    · simp [hb, readsAfterCheck, checksLockFree]
    · rw [if_neg hb]
      cases hp : pageAt rel b with
      | none =>
        simp [undoWalkStep, readsAfterCheck, noReadAfter, checksLockFree,
          isReadEv, isCheckEv, locksStep]
      | some p =>
        simp only [undoWalkStep]
        by_cases htag : p.undoTrailer.zs_page_id = ZS_UNDO_PAGE_ID
        · rw [if_neg (by simpa using htag)]
          have ihn := ih p.undoTrailer.next
          constructor
          · simp only [readsAfterCheck, noReadAfter, isReadEv, isCheckEv,
              List.cons_append, List.nil_append, Bool.and_eq_true]
            refine ⟨rfl, rfl, rfl, rfl, ?_⟩
            exact noReadAfter_of_readsAfterCheck _ _ ihn.1
          · simp only [checksLockFree, locksStep, isCheckEv,
              List.cons_append, List.nil_append, List.erase_cons_head,
              Bool.and_eq_true, List.isEmpty_nil]
            refine ⟨rfl, ?_⟩
            simpa using ihn.2
        · rw [if_pos (by simpa using htag)]
          simp [readsAfterCheck, noReadAfter, checksLockFree, isReadEv,
            isCheckEv, locksStep]

/-- The traces of the full-relation block loops of pg_zs_btree_pages and
pg_zs_toast_pages: per-block iterations start with CHECK_FOR_INTERRUPTS,
immediately followed by the ReadBuffer, and every lock taken is released
within the iteration. -/
theorem scanBlocks_trace {ρ : Type} (visit : Nat → Option ρ × List Ev)
    (hshape : ∀ b, (visit b).2 = [Ev.check, Ev.read b] ∨
      (visit b).2 = [Ev.check, Ev.read b, Ev.lock b, Ev.unlock b]) :
    ∀ bs, readsAfterCheck (scanBlocks visit bs).2 = true ∧
      checksLockFree [] (scanBlocks visit bs).2 = true := by
  intro bs
  induction bs with
  | nil => simp [scanBlocks, readsAfterCheck, checksLockFree]
  | cons b rest ih =>
    simp only [scanBlocks]
    rcases hshape b with h | h <;> rw [h] <;> constructor
    · simp only [readsAfterCheck, noReadAfter, isReadEv, isCheckEv,
        List.cons_append, List.nil_append, Bool.and_eq_true]
      refine ⟨rfl, rfl, ?_⟩
      exact noReadAfter_of_readsAfterCheck _ _ ih.1
    · simp only [checksLockFree, locksStep, isCheckEv, List.cons_append,
        List.nil_append, Bool.and_eq_true, List.isEmpty_nil]
      refine ⟨rfl, ?_⟩
      simpa using ih.2
    · simp only [readsAfterCheck, noReadAfter, isReadEv, isCheckEv,
        List.cons_append, List.nil_append, Bool.and_eq_true]
      refine ⟨rfl, rfl, rfl, rfl, ?_⟩
      exact noReadAfter_of_readsAfterCheck _ _ ih.1
    · simp only [checksLockFree, locksStep, isCheckEv, List.cons_append,
        List.nil_append, List.erase_cons_head, Bool.and_eq_true,
        List.isEmpty_nil]
      refine ⟨rfl, ?_⟩
      simpa using ih.2

/-- The per-block trace of the B-tree scan has one of the two expected
shapes. -/
theorem btreeVisit_trace (rel : ZSRel) (b : Nat) :
    (btreeVisit rel b).2 = [Ev.check, Ev.read b] ∨
      (btreeVisit rel b).2 =
        [Ev.check, Ev.read b, Ev.lock b, Ev.unlock b] := by
  unfold btreeVisit
  cases pageAt rel b with
  | none => left; rfl
  | some p =>
    right
    by_cases h1 : pageSpecialSize p ≠ alignedSizeOfZSBtreePageTrailer <;>
      by_cases h2 : p.btreeTrailer.zs_page_id ≠ ZS_BTREE_PAGE_ID <;>
      simp [btreeVisitStep, h1, h2]

/-- The per-block trace of the toast scan has one of the two expected
shapes. -/
theorem toastVisit_trace (rel : ZSRel) (b : Nat) :
    (toastVisit rel b).2 = [Ev.check, Ev.read b] ∨
      (toastVisit rel b).2 =
        [Ev.check, Ev.read b, Ev.lock b, Ev.unlock b] := by
  unfold toastVisit
  cases pageAt rel b with
  | none => left; rfl
  | some p =>
    right
    by_cases h1 : pageSpecialSize p ≠ alignedSizeOfZSToastPageTrailer <;>
      by_cases h2 : p.toastTrailer.zs_page_id ≠ ZS_TOAST_PAGE_ID <;>
      simp [toastVisitStep, h1, h2]

/-! ### Scan lemmas -/

/-- The rows collected by the block loop are the filterMap of the
per-block visits over the scanned block numbers. -/
theorem scanBlocks_fst {ρ : Type} (visit : Nat → Option ρ × List Ev) :
    ∀ bs, (scanBlocks visit bs).1 = bs.filterMap (fun b => (visit b).1) := by
  intro bs
  induction bs with
  | nil => rfl
  | cons b rest ih =>
    simp only [scanBlocks, ih, List.filterMap_cons]
    cases (visit b).1 <;> simp

/-- A filterMap over distinct keys keeps exactly one element per key:
if every produced element is tagged with its source key, filtering the
result for the key of a present element yields exactly that element. -/
theorem filterMap_filter_key {ρ : Type} (key : ρ → Nat) (f : Nat → Option ρ)
    (hkey : ∀ b r, f b = some r → key r = b) :
    ∀ (bs : List Nat), bs.Nodup → ∀ b r, b ∈ bs → f b = some r →
      (bs.filterMap f).filter (fun x => key x == b) = [r] := by
  intro bs
  induction bs with
  | nil => intro _ b r hb; cases hb
  | cons b0 rest ih =>
    intro hnd b r hb hf
    have hnd' := List.nodup_cons.mp hnd
    rcases List.mem_cons.mp hb with hbe | hmem
    · subst hbe
      rw [List.filterMap_cons, hf]
      have hkr : key r = b := hkey b r hf
      simp only [List.filter_cons, hkr, beq_self_eq_true, if_pos]
      have hrest : (rest.filterMap f).filter (fun x => key x == b) = [] := by
        rw [List.filter_eq_nil_iff]
        intro x hx
        rcases List.mem_filterMap.mp hx with ⟨b2, hb2, hfb2⟩
        have : key x = b2 := hkey b2 x hfb2
        simp only [this, beq_iff_eq]
        intro he
        exact hnd'.1 (he ▸ hb2)
      rw [hrest]
    · have hbne : b0 ≠ b := by
        intro he
        exact hnd'.1 (he ▸ hmem)
      rw [List.filterMap_cons]
      cases hf0 : f b0 with
      | none => exact ih hnd'.2 b r hmem hf
      | some r0 =>
        have hk0 : key r0 = b0 := hkey b0 r0 hf0
        simp only [List.filter_cons, hk0]
        rw [if_neg (by simpa using hbne)]
        exact ih hnd'.2 b r hmem hf

/-- Every row emitted by the B-tree block loop carries its source block
number. -/
theorem btreeVisit_blkno (rel : ZSRel) (b : Nat) (r : BtreeRow)
    (h : (btreeVisit rel b).1 = some r) : r.blkno = b := by
  unfold btreeVisit at h
  cases hp : pageAt rel b with
  | none => rw [hp] at h; simp [btreeVisitStep] at h
  | some p =>
    rw [hp] at h
    simp only [btreeVisitStep] at h
    by_cases h1 : pageSpecialSize p ≠ alignedSizeOfZSBtreePageTrailer
    · rw [if_pos h1] at h; simp at h
    · rw [if_neg h1] at h
      by_cases h2 : p.btreeTrailer.zs_page_id ≠ ZS_BTREE_PAGE_ID
      · rw [if_pos h2] at h; simp at h
      · rw [if_neg h2] at h
        simp only [Option.some.injEq] at h
        rw [← h]
        rfl

/-- The B-tree block loop emits the row of every page passing the
special-size and tag checks. -/
theorem btreeVisit_some (rel : ZSRel) (b : Nat) (p : Page)
    (hp : pageAt rel b = some p) (hbt : isBtreePage p) :
    (btreeVisit rel b).1 = some (mkBtreeRow b p) := by
  unfold btreeVisit
  rw [hp]
  simp only [btreeVisitStep]
  rw [if_neg (by simp [hbt.1]), if_neg (by simp [hbt.2])]

/-- The B-tree block loop emits no row for a page failing the checks. -/
theorem btreeVisit_none (rel : ZSRel) (b : Nat) (p : Page)
    (hp : pageAt rel b = some p) (hnbt : ¬ isBtreePage p) :
    (btreeVisit rel b).1 = none := by
  unfold btreeVisit
  rw [hp]
  simp only [btreeVisitStep]
  by_cases h1 : pageSpecialSize p ≠ alignedSizeOfZSBtreePageTrailer
  · rw [if_pos h1]
  · rw [if_neg h1]
    have h2 : p.btreeTrailer.zs_page_id ≠ ZS_BTREE_PAGE_ID := by
      intro h2
      exact hnbt ⟨by simpa using h1, h2⟩
    rw [if_pos h2]

/-- Every row emitted by the toast block loop carries its source block
number. -/
theorem toastVisit_blkno (rel : ZSRel) (b : Nat) (r : ToastRow)
    (h : (toastVisit rel b).1 = some r) : r.blkno = b := by
  unfold toastVisit at h
  cases hp : pageAt rel b with
  | none => rw [hp] at h; simp [toastVisitStep] at h
  | some p =>
    rw [hp] at h
    simp only [toastVisitStep] at h
    by_cases h1 : pageSpecialSize p ≠ alignedSizeOfZSToastPageTrailer
    · rw [if_pos h1] at h; simp at h
    · rw [if_neg h1] at h
      by_cases h2 : p.toastTrailer.zs_page_id ≠ ZS_TOAST_PAGE_ID
      · rw [if_pos h2] at h; simp at h
      · rw [if_neg h2] at h
        simp only [Option.some.injEq] at h
        rw [← h]
        rfl

/-- The toast block loop emits no row for a page failing the checks. -/
theorem toastVisit_none (rel : ZSRel) (b : Nat) (p : Page)
    (hp : pageAt rel b = some p) (hnt : ¬ isToastPage p) :
    (toastVisit rel b).1 = none := by
  unfold toastVisit
  rw [hp]
  simp only [toastVisitStep]
  by_cases h1 : pageSpecialSize p ≠ alignedSizeOfZSToastPageTrailer
  · rw [if_pos h1]
  · rw [if_neg h1]
    have h2 : p.toastTrailer.zs_page_id ≠ ZS_TOAST_PAGE_ID := by
      intro h2
      exact hnt ⟨by simpa using h1, h2⟩
    rw [if_pos h2]

/-- Membership in the scanned block range. -/
theorem mem_scanRange (rel : ZSRel) (b : Nat) :
    b ∈ scanRange rel ↔ 1 ≤ b ∧ b < rel.pages.length := by
  unfold scanRange
  rw [List.mem_range'_1]
  constructor
  · intro ⟨h1, h2⟩
    exact ⟨h1, by omega⟩
  · intro ⟨h1, h2⟩
    exact ⟨h1, by omega⟩

/-- The scanned block range has no duplicates. -/
theorem scanRange_nodup (rel : ZSRel) : (scanRange rel).Nodup := by
  unfold scanRange
  exact (List.pairwise_lt_range' 1 _ 1 (by omega)).imp Nat.ne_of_lt

/-! ## Claim theorems -/

/-- Full case analysis of the pg_zs_page_type switch: each of the five
known results is returned exactly for its constant, and UNKNOWN exactly
for the remaining tags, always carrying the tag itself. -/
theorem classifyPageTag_cases (tag : Nat) :
    (classifyPageTag tag = .meta ↔ tag = ZS_META_PAGE_ID) ∧
    (classifyPageTag tag = .btree ↔ tag = ZS_BTREE_PAGE_ID) ∧
    (classifyPageTag tag = .undo ↔ tag = ZS_UNDO_PAGE_ID) ∧
    (classifyPageTag tag = .toast ↔ tag = ZS_TOAST_PAGE_ID) ∧
    (classifyPageTag tag = .free ↔ tag = ZS_FREE_PAGE_ID) ∧
    (∀ t : Nat, classifyPageTag tag = .unknown t ↔
      (t = tag ∧ tag ≠ ZS_META_PAGE_ID ∧ tag ≠ ZS_BTREE_PAGE_ID ∧
        tag ≠ ZS_UNDO_PAGE_ID ∧ tag ≠ ZS_TOAST_PAGE_ID ∧
        tag ≠ ZS_FREE_PAGE_ID)) := by
  unfold classifyPageTag ZS_META_PAGE_ID ZS_BTREE_PAGE_ID ZS_UNDO_PAGE_ID
    ZS_TOAST_PAGE_ID ZS_FREE_PAGE_ID
  split_ifs with h1 h2 h3 h4 h5 <;>
    refine ⟨?_, ?_, ?_, ?_, ?_, fun t => ?_⟩ <;>
    (simp_all; try omega)

/-- Claim C1: for every page of a relation (superuser caller, relation
not another session's temporary one, page within the relation),
pg_zs_page_type classifies the page by the 16-bit tag stored in the last
two bytes of the page, returning exactly the string "META", "BTREE",
"UNDO", "TOAST" or "FREE" when the tag equals the corresponding
page-kind constant, and otherwise "UNKNOWN 0x…" together with the tag
value; by the case analysis, no tag value maps to more than one
result. -/
theorem pg_zs_page_type_classification (ctx : CallCtx) (rel : ZSRel)
    (pageno : Nat) (p : Page) (hsu : ctx.superuser = true)
    (htmp : rel.isOtherTemp = false) (hp : pageAt rel pageno = some p) :
    (pg_zs_page_type ctx rel pageno).1 =
      .ok (pageTypeString (classifyPageTag (p.rawEndTag % 65536))) ∧
    pageTypeString ZSPageType.meta = "META" ∧
    pageTypeString ZSPageType.btree = "BTREE" ∧
    pageTypeString ZSPageType.undo = "UNDO" ∧
    pageTypeString ZSPageType.toast = "TOAST" ∧
    pageTypeString ZSPageType.free = "FREE" ∧
    (∀ t : Nat, pageTypeString (ZSPageType.unknown t) =
      "UNKNOWN 0x" ++ hex4 t) ∧
    (∀ tag : Nat,
      (classifyPageTag tag = .meta ↔ tag = ZS_META_PAGE_ID) ∧
      (classifyPageTag tag = .btree ↔ tag = ZS_BTREE_PAGE_ID) ∧
      (classifyPageTag tag = .undo ↔ tag = ZS_UNDO_PAGE_ID) ∧
      (classifyPageTag tag = .toast ↔ tag = ZS_TOAST_PAGE_ID) ∧
      (classifyPageTag tag = .free ↔ tag = ZS_FREE_PAGE_ID) ∧
      (∀ t : Nat, classifyPageTag tag = .unknown t ↔
        (t = tag ∧ tag ≠ ZS_META_PAGE_ID ∧ tag ≠ ZS_BTREE_PAGE_ID ∧
          tag ≠ ZS_UNDO_PAGE_ID ∧ tag ≠ ZS_TOAST_PAGE_ID ∧
          tag ≠ ZS_FREE_PAGE_ID))) := by
  refine ⟨?_, rfl, rfl, rfl, rfl, rfl, fun t => rfl, classifyPageTag_cases⟩
  unfold pg_zs_page_type
  rw [hsu, htmp]
  simp [hp, pageTypeStep]

/-- Witness for C1: evaluating pg_zs_page_type on the concrete relation
at its metapage yields "META". -/
theorem pg_zs_page_type_classification_witness :
    (pg_zs_page_type ctxW relW 0).1 = .ok "META" := by
  have h := pg_zs_page_type_classification ctxW relW 0 page0W rfl rfl
    (by decide)
  exact h.1.trans (by decide)

/-- Claim C2: for every inspection entry point and every input, a
non-superuser caller or a target relation that is another session's
temporary relation makes the call raise an error while its event trace
contains no page read: the error comes before any page of the relation
is read. -/
theorem inspect_rejects_before_any_read (ctx : CallCtx) (rel : ZSRel)
    (pageno blkno fuel : Nat)
    (h : ctx.superuser = false ∨ rel.isOtherTemp = true) :
    (isErr (pg_zs_page_type ctx rel pageno).1 = true ∧
      hasRead (pg_zs_page_type ctx rel pageno).2 = false) ∧
    (isErr (pg_zs_undo_pages ctx rel fuel).1 = true ∧
      hasRead (pg_zs_undo_pages ctx rel fuel).2 = false) ∧
    (isErr (pg_zs_btree_pages ctx rel).1 = true ∧
      hasRead (pg_zs_btree_pages ctx rel).2 = false) ∧
    (isErr (pg_zs_toast_pages ctx rel).1 = true ∧
      hasRead (pg_zs_toast_pages ctx rel).2 = false) ∧
    (isErr (pg_zs_dump_attstreams ctx rel blkno).1 = true ∧
      hasRead (pg_zs_dump_attstreams ctx rel blkno).2 = false) ∧
    (isErr (pg_zs_meta_page ctx rel).1 = true ∧
      hasRead (pg_zs_meta_page ctx rel).2 = false) := by
  rcases h with h | h
  · simp [pg_zs_page_type, pg_zs_undo_pages, pg_zs_btree_pages,
      pg_zs_toast_pages, pg_zs_dump_attstreams, pg_zs_meta_page, h,
      isErr, hasRead]
  · cases hsu : ctx.superuser <;> cases hset : ctx.setOK <;>
      simp [pg_zs_page_type, pg_zs_undo_pages, pg_zs_btree_pages,
        pg_zs_toast_pages, pg_zs_dump_attstreams, pg_zs_meta_page, h, hsu,
        hset, isErr, hasRead, isReadEv]

/-- Witness for C2: a non-superuser call of each entry point on the
concrete relation errors with no page read. -/
theorem inspect_rejects_before_any_read_witness :
    (isErr (pg_zs_page_type ctxNoSU relW 0).1 = true ∧
      hasRead (pg_zs_page_type ctxNoSU relW 0).2 = false) ∧
    (isErr (pg_zs_undo_pages ctxNoSU relW 3).1 = true ∧
      hasRead (pg_zs_undo_pages ctxNoSU relW 3).2 = false) ∧
    (isErr (pg_zs_btree_pages ctxNoSU relW).1 = true ∧
      hasRead (pg_zs_btree_pages ctxNoSU relW).2 = false) ∧
    (isErr (pg_zs_toast_pages ctxNoSU relW).1 = true ∧
      hasRead (pg_zs_toast_pages ctxNoSU relW).2 = false) ∧
    (isErr (pg_zs_dump_attstreams ctxNoSU relW 1).1 = true ∧
      hasRead (pg_zs_dump_attstreams ctxNoSU relW 1).2 = false) ∧
    (isErr (pg_zs_meta_page ctxNoSU relW).1 = true ∧
      hasRead (pg_zs_meta_page ctxNoSU relW).2 = false) :=
  inspect_rejects_before_any_read ctxNoSU relW 0 1 3 (Or.inl rfl)

/-- Claim C3: when the undo-chain walk of pg_zs_undo_pages reaches a
page whose trailer tag is not the UNDO page kind, the walk stops at that
page with the diagnostic UndoStop.badPage carrying that block number
(the WARNING "unexpected page id on UNDO page %u" surfaced to the
caller), emitting no row for that page and visiting nothing beyond it —
it neither skips the page silently nor ends the scan silently. -/
theorem undo_walk_aborts_on_bad_tag (rel : ZSRel) (fuel b : Nat) (p : Page)
    (hb : b ≠ InvalidBlockNumber) (hp : pageAt rel b = some p)
    (htag : p.undoTrailer.zs_page_id ≠ ZS_UNDO_PAGE_ID) :
    undoWalk rel (fuel + 1) b =
      (.ok ([], .badPage b), [Ev.check, Ev.read b, Ev.lock b]) := by
  rw [undoWalk, if_neg hb, hp]
  simp only [undoWalkStep]
  rw [if_pos htag]

/-- Witness for C3: pointing the walk at the concrete B-tree page stops
it with the diagnostic naming that page. -/
theorem undo_walk_aborts_on_bad_tag_witness :
    undoWalk relW 3 1 =
      (.ok ([], .badPage 1), [Ev.check, Ev.read 1, Ev.lock 1]) :=
  undo_walk_aborts_on_bad_tag relW 2 1 page1W (by decide) (by decide)
    (by decide)

/-- Claim C4: pg_zs_undo_pages starts from the undo head recorded in the
metapage and follows successor pointers to InvalidBlockNumber; for every
undo page of that chain (each well packed from the header end to
pd_lower) it emits exactly one row (blkno, count of packed records,
exact free space, counter of the first packed record, counter of the
last packed record), in chain order. -/
theorem undo_pages_enumerates_chain (ctx : CallCtx) (rel : ZSRel)
    (fuel : Nat) (meta : Page) (chain : List (Nat × Page))
    (hsu : ctx.superuser = true) (hset : ctx.setOK = true)
    (htmp : rel.isOtherTemp = false)
    (hmeta : pageAt rel ZS_META_BLK = some meta)
    (hchain : undoChainPages rel fuel meta.metaTrailer.zs_undo_head =
      some chain)
    (hwf : ∀ bp ∈ chain, wellPackedUndoPage bp.2) :
    (pg_zs_undo_pages ctx rel fuel).1 =
      .ok (chain.map undoPageRowOf, .done) := by
  have hw := undoWalk_chain rel fuel meta.metaTrailer.zs_undo_head chain
    hchain hwf
  unfold pg_zs_undo_pages
  rw [hsu, hset, htmp, hmeta]
  simp only [undoPagesStep]
  simp [hw, isErr]

/-- Witness for C4: on the concrete relation the chain is the single
undo page at block 2, and the emitted row reports its two records. -/
theorem undo_pages_enumerates_chain_witness :
    (pg_zs_undo_pages ctxW relW 3).1 =
      .ok ([⟨2, 2, 7976, 100, 101⟩], .done) := by
  have h := undo_pages_enumerates_chain ctxW relW 3 page0W [(2, page2W)]
    rfl rfl rfl (by decide) (by decide) (by decide)
  exact h.trans (by decide)

/-- The three-event metapage prelude of pg_zs_undo_pages holds no lock
across it. -/
theorem checksLockFree_pre (t : List Ev) :
    checksLockFree []
      ([Ev.read ZS_META_BLK, Ev.lock ZS_META_BLK, Ev.unlock ZS_META_BLK]
        ++ t) = checksLockFree [] t := by
  simp [checksLockFree, locksStep, isCheckEv]

theorem checksLockFree_append_close (t : List Ev)
    (h : checksLockFree [] t = true) :
    checksLockFree [] (t ++ [Ev.closeRel]) = true :=
  checksLockFree_append t [Ev.closeRel] [] h (checksLockFree_close _)

/-- The metapage read, the undo-chain walk and the close of
pg_zs_undo_pages hold no lock across any CHECK_FOR_INTERRUPTS. -/
theorem undoPagesStep_lockfree (rel : ZSRel) (fuel : Nat)
    (op : Option Page) :
    checksLockFree [] (undoPagesStep rel fuel op).2 = true := by
  cases op with
  | none => simp [undoPagesStep, checksLockFree, locksStep, isCheckEv]
  | some meta =>
    simp only [undoPagesStep]
    by_cases he :
        isErr (undoWalk rel fuel meta.metaTrailer.zs_undo_head).1 = true
    · rw [if_pos he]
      simp only []
      rw [checksLockFree_pre]
      exact (undoWalk_trace rel fuel _).2
    · rw [if_neg he]
      simp only []
      refine checksLockFree_append_close _ ?_
      rw [checksLockFree_pre]
      exact (undoWalk_trace rel fuel _).2

/-- Claim C7: every multi-page inspection scan polls for cancellation
between pages: in the undo-chain walk and in the full-relation loops of
pg_zs_btree_pages and pg_zs_toast_pages, every ReadBuffer is immediately
preceded by a CHECK_FOR_INTERRUPTS, and every CHECK_FOR_INTERRUPTS in
the functions' traces happens while no page lock is held. -/
theorem inspect_scans_poll_cancellation (ctx : CallCtx) (rel : ZSRel)
    (fuel b : Nat) :
    readsAfterCheck (undoWalk rel fuel b).2 = true ∧
    checksLockFree [] (undoWalk rel fuel b).2 = true ∧
    checksLockFree [] (pg_zs_undo_pages ctx rel fuel).2 = true ∧
    readsAfterCheck (pg_zs_btree_pages ctx rel).2 = true ∧
    checksLockFree [] (pg_zs_btree_pages ctx rel).2 = true ∧
    readsAfterCheck (pg_zs_toast_pages ctx rel).2 = true ∧
    checksLockFree [] (pg_zs_toast_pages ctx rel).2 = true := by
  have hbt := scanBlocks_trace (btreeVisit rel) (btreeVisit_trace rel)
    (scanRange rel)
  have htt := scanBlocks_trace (toastVisit rel) (toastVisit_trace rel)
    (scanRange rel)
  refine ⟨(undoWalk_trace rel fuel b).1, (undoWalk_trace rel fuel b).2,
    ?_, ?_, ?_, ?_, ?_⟩
  · unfold pg_zs_undo_pages
    cases hsu : ctx.superuser
    · simp [checksLockFree]
    · cases hset : ctx.setOK
      · simp [checksLockFree]
      · cases htmp : rel.isOtherTemp
        · simp [undoPagesStep_lockfree rel fuel]
        · simp [checksLockFree]
  · unfold pg_zs_btree_pages
    cases hsu : ctx.superuser
    · simp [readsAfterCheck]
    · cases hset : ctx.setOK
      · simp [readsAfterCheck]
      · cases htmp : rel.isOtherTemp
        · simp only [Bool.true_eq_false, if_false, Bool.false_eq_true]
          exact readsAfterCheck_append_close _ hbt.1
        · simp [readsAfterCheck]
  · unfold pg_zs_btree_pages
    cases hsu : ctx.superuser
    · simp [checksLockFree]
    · cases hset : ctx.setOK
      · simp [checksLockFree]
      · cases htmp : rel.isOtherTemp
        · simp only [Bool.true_eq_false, if_false, Bool.false_eq_true]
          exact checksLockFree_append_close _ hbt.2
        · simp [checksLockFree]
  · unfold pg_zs_toast_pages
    cases hsu : ctx.superuser
    · simp [readsAfterCheck]
    · cases hset : ctx.setOK
      · simp [readsAfterCheck]
      · cases htmp : rel.isOtherTemp
        · simp only [Bool.true_eq_false, if_false, Bool.false_eq_true]
          exact readsAfterCheck_append_close _ htt.1
        · simp [readsAfterCheck]
  · unfold pg_zs_toast_pages
    cases hsu : ctx.superuser
    · simp [checksLockFree]
    · cases hset : ctx.setOK
      · simp [checksLockFree]
      · cases htmp : rel.isOtherTemp
        · simp only [Bool.true_eq_false, if_false, Bool.false_eq_true]
          exact checksLockFree_append_close _ htt.2
        · simp [checksLockFree]

/-- A block holding a page is within the relation. -/
theorem pageAt_lt (rel : ZSRel) (b : Nat) (p : Page)
    (hp : pageAt rel b = some p) : b < rel.pages.length := by
  unfold pageAt at hp
  by_contra hge
  rw [List.getElem?_eq_none (by omega)] at hp
  cases hp

/-- Inversion of a B-tree scan row: it comes from a page of the relation
passing the checks. -/
theorem btreeVisit_inv (rel : ZSRel) (b : Nat) (r : BtreeRow)
    (h : (btreeVisit rel b).1 = some r) :
    ∃ p, pageAt rel b = some p ∧ isBtreePage p ∧ r = mkBtreeRow b p := by
  unfold btreeVisit at h
  cases hp : pageAt rel b with
  | none => rw [hp] at h; simp [btreeVisitStep] at h
  | some p =>
    rw [hp] at h
    simp only [btreeVisitStep] at h
    by_cases h1 : pageSpecialSize p ≠ alignedSizeOfZSBtreePageTrailer
    · rw [if_pos h1] at h; simp at h
    · rw [if_neg h1] at h
      by_cases h2 : p.btreeTrailer.zs_page_id ≠ ZS_BTREE_PAGE_ID
      · rw [if_pos h2] at h; simp at h
      · rw [if_neg h2] at h
        simp only [Option.some.injEq] at h
        exact ⟨p, rfl, ⟨by simpa using h1, by simpa using h2⟩, h.symm⟩

/-- Claim C5: pg_zs_btree_pages succeeds and returns btreeRows; every
B-tree page (matching special size and trailer tag) of the relation
yields exactly one row, built from its trailer (blkno, successor, attno,
level, lokey, hikey), item count and free space; and in every returned
row the three leaf-only statistics (ncompressed, totalsz, uncompressedsz)
are SQL NULL exactly on internal pages (level > 0) and populated exactly
on leaves (level 0). -/
theorem btree_pages_rows (ctx : CallCtx) (rel : ZSRel)
    (hsu : ctx.superuser = true) (hset : ctx.setOK = true)
    (htmp : rel.isOtherTemp = false) :
    (pg_zs_btree_pages ctx rel).1 = .ok (btreeRows rel) ∧
    (∀ b p, pageAt rel b = some p → 1 ≤ b → isBtreePage p →
      (btreeRows rel).filter (fun r => r.blkno == b) = [mkBtreeRow b p]) ∧
    (∀ r ∈ btreeRows rel, ∃ b p, pageAt rel b = some p ∧ isBtreePage p ∧
      r = mkBtreeRow b p) ∧
    (∀ r ∈ btreeRows rel,
      (r.ncompressed = none ↔ 0 < r.level) ∧
      (r.totalsz = none ↔ 0 < r.level) ∧
      (r.uncompressedsz = none ↔ 0 < r.level)) := by
  refine ⟨?_, ?_, ?_, ?_⟩
  · unfold pg_zs_btree_pages
    rw [if_neg (by simp [hsu]), if_neg (by simp [hset]),
      if_neg (by simp [htmp])]
    exact congrArg Except.ok (scanBlocks_fst _ _)
  · intro b p hp hb1 hbt
    exact filterMap_filter_key BtreeRow.blkno _
      (fun b2 r2 h2 => btreeVisit_blkno rel b2 r2 h2) (scanRange rel)
      (scanRange_nodup rel) b (mkBtreeRow b p)
      ((mem_scanRange rel b).mpr ⟨hb1, pageAt_lt rel b p hp⟩)
      (btreeVisit_some rel b p hp hbt)
  · intro r hr
    rcases List.mem_filterMap.mp hr with ⟨b, _, hvis⟩
    rcases btreeVisit_inv rel b r hvis with ⟨p, hp, hbt, hrp⟩
    exact ⟨b, p, hp, hbt, hrp⟩
  · intro r hr
    rcases List.mem_filterMap.mp hr with ⟨b, _, hvis⟩
    rcases btreeVisit_inv rel b r hvis with ⟨p, _, _, hrp⟩
    subst hrp
    by_cases hl : p.btreeTrailer.zs_level = 0 <;>
      (simp [mkBtreeRow, hl]; try omega)

/-- Witness for C5: on the concrete relation the function succeeds with
btreeRows, and the attribute-leaf block 1 yields exactly its row. -/
theorem btree_pages_rows_witness :
    (pg_zs_btree_pages ctxW relW).1 = .ok (btreeRows relW) ∧
    (btreeRows relW).filter (fun r => r.blkno == 1) =
      [mkBtreeRow 1 page1W] := by
  have h := btree_pages_rows ctxW relW rfl rfl rfl
  exact ⟨h.1, h.2.1 1 page1W (by decide) (by decide) (by decide)⟩

/-- Claim C6 (amended): pg_zs_meta_page reads page 0 and, when the
trailer has the metapage size and tag, returns exactly the metapage
trailer tuple; when the trailer size does not match it raises the
"Bad page special size" error, which does not carry the found tag; when
the size matches but the tag does not, it raises the error reporting the
found tag. -/
theorem meta_page_snapshot (ctx : CallCtx) (rel : ZSRel) (p : Page)
    (hsu : ctx.superuser = true) (hset : ctx.setOK = true)
    (htmp : rel.isOtherTemp = false)
    (hp : pageAt rel ZS_META_BLK = some p) :
    (pageSpecialSize p = alignedSizeOfZSMetaPageTrailer →
      p.metaTrailer.zs_page_id = ZS_META_PAGE_ID →
      (pg_zs_meta_page ctx rel).1 = .ok
        ⟨ZS_META_BLK, p.metaTrailer.zs_undo_head,
          p.metaTrailer.zs_undo_tail,
          p.metaTrailer.zs_undo_tail_first_counter,
          p.metaTrailer.zs_undo_oldestptr.counter,
          p.metaTrailer.zs_undo_oldestptr.blkno,
          p.metaTrailer.zs_undo_oldestptr.offset,
          p.metaTrailer.zs_fpm_head, p.metaTrailer.zs_flags⟩) ∧
    (pageSpecialSize p ≠ alignedSizeOfZSMetaPageTrailer →
      (pg_zs_meta_page ctx rel).1 = .error .badSpecialSize) ∧
    (pageSpecialSize p = alignedSizeOfZSMetaPageTrailer →
      p.metaTrailer.zs_page_id ≠ ZS_META_PAGE_ID →
      (pg_zs_meta_page ctx rel).1 =
        .error (.badMetaPageId p.metaTrailer.zs_page_id)) := by
  have hred : (pg_zs_meta_page ctx rel) = metaPageStep (some p) := by
    unfold pg_zs_meta_page
    rw [if_neg (by simp [hsu]), if_neg (by simp [hset]),
      if_neg (by simp [htmp]), hp]
  refine ⟨fun h1 h2 => ?_, fun h1 => ?_, fun h1 h2 => ?_⟩
  · rw [hred]
    simp only [metaPageStep]
    rw [if_neg (by simp [h1]), if_neg (by simp [h2])]
  · rw [hred]
    simp only [metaPageStep]
    rw [if_pos h1]
  · rw [hred]
    simp only [metaPageStep]
    rw [if_neg (by simp [h1]), if_pos h2]

/-- Counterexample for C6 as stated: a metapage whose trailer size does
not match makes pg_zs_meta_page raise the "Bad page special size" error,
which does not report the found tag — refuting the claim that a size or
tag mismatch raises an error reporting the found tag. -/
theorem meta_page_size_error_lacks_tag :
    pageSpecialSize pageBadMetaW ≠ alignedSizeOfZSMetaPageTrailer ∧
    pageAt relBadMeta ZS_META_BLK = some pageBadMetaW ∧
    ctxW.superuser = true ∧ ctxW.setOK = true ∧
    relBadMeta.isOtherTemp = false ∧
    (pg_zs_meta_page ctxW relBadMeta).1 = .error .badSpecialSize ∧
    errReportsTag (pg_zs_meta_page ctxW relBadMeta).1 = false := by
  decide

/-- Witness for the amended C6: on the concrete relation the metapage
tuple is returned. -/
theorem meta_page_snapshot_witness :
    (pg_zs_meta_page ctxW relW).1 =
      .ok ⟨0, 2, 2, 100, 100, 2, 24, InvalidBlockNumber, 0⟩ := by
  have h := meta_page_snapshot ctxW relW page0W rfl rfl rfl (by decide)
  exact (h.1 (by decide) (by decide)).trans (by decide)

theorem withStreamChunks_lowerPresent (p : Page) (c1 c2 : List AttChunk) :
    lowerStreamPresent (withStreamChunks p c1 c2) = lowerStreamPresent p :=
  rfl

theorem withStreamChunks_upperPresent (p : Page) (c1 c2 : List AttChunk) :
    upperStreamPresent (withStreamChunks p c1 c2) = upperStreamPresent p :=
  rfl

/-- Claim C8: on an attribute leaf (level 0, attno not the meta
sentinel) the item count reported by pg_zs_btree_pages is the number of
streams present on the page — hence at most 2 — and is unchanged by
replacing what the streams encode; on a meta-attribute leaf it counts
the page's items exactly. -/
theorem btree_leaf_nitems_streams (blkno : Nat) (p : Page)
    (hlevel : p.btreeTrailer.zs_level = 0) :
    (p.btreeTrailer.zs_attno ≠ ZS_META_ATTRIBUTE_NUM →
      (mkBtreeRow blkno p).nitems = nstreamsOf p ∧
      nstreamsOf p ≤ 2 ∧
      (∀ c1 c2 : List AttChunk,
        (mkBtreeRow blkno (withStreamChunks p c1 c2)).nitems =
          (mkBtreeRow blkno p).nitems)) ∧
    (p.btreeTrailer.zs_attno = ZS_META_ATTRIBUTE_NUM →
      (mkBtreeRow blkno p).nitems = p.tidItems.length) := by
  constructor
  · intro hatt
    have h1 : (mkBtreeRow blkno p).nitems = nstreamsOf p := by
      simp [mkBtreeRow, hlevel, hatt, nstreamsOf, attrLeafStats_fst]
    refine ⟨h1, ?_, ?_⟩
    · unfold nstreamsOf presentStreams
      by_cases hl : lowerStreamPresent p <;>
        by_cases hu : upperStreamPresent p <;> simp [hl, hu]
    · intro c1 c2
      have hns : nstreamsOf (withStreamChunks p c1 c2) = nstreamsOf p := by
        unfold nstreamsOf presentStreams
        rw [withStreamChunks_lowerPresent, withStreamChunks_upperPresent]
        by_cases hl : lowerStreamPresent p <;>
          by_cases hu : upperStreamPresent p <;> simp [hl, hu]
      have h2 : (mkBtreeRow blkno (withStreamChunks p c1 c2)).nitems =
          nstreamsOf (withStreamChunks p c1 c2) := by
        simp [mkBtreeRow, withStreamChunks, hlevel, hatt, nstreamsOf,
          attrLeafStats_fst]
      rw [h2, hns, h1]
  · intro hatt
    simp [mkBtreeRow, hlevel, hatt]

/-- Witness for C8: the concrete attribute leaf reports one item (its
single stream), and the concrete meta-attribute leaf reports its two
items. -/
theorem btree_leaf_nitems_streams_witness :
    (mkBtreeRow 1 page1W).nitems = nstreamsOf page1W ∧
    nstreamsOf page1W ≤ 2 ∧
    (mkBtreeRow 6 page6W).nitems = page6W.tidItems.length := by
  have h1 := btree_leaf_nitems_streams 1 page1W rfl
  have h6 := btree_leaf_nitems_streams 6 page6W rfl
  exact ⟨(h1.1 (by decide)).1, (h1.1 (by decide)).2.1, h6.2 rfl⟩

/-- Claim C9: under the standard preconditions the full-relation scans
of pg_zs_btree_pages and pg_zs_toast_pages succeed (no error), every row
they emit has block number at least 1 (the metapage, block 0, is never
enumerated), and a page whose special size or trailer tag does not match
the expected kind contributes no row at all — it is skipped silently. -/
theorem scans_skip_nonmatching_pages (ctx : CallCtx) (rel : ZSRel)
    (hsu : ctx.superuser = true) (hset : ctx.setOK = true)
    (htmp : rel.isOtherTemp = false) :
    isErr (pg_zs_btree_pages ctx rel).1 = false ∧
    isErr (pg_zs_toast_pages ctx rel).1 = false ∧
    (∀ r ∈ btreeRows rel, 1 ≤ r.blkno) ∧
    (∀ r ∈ toastRows rel, 1 ≤ r.blkno) ∧
    (∀ b p, pageAt rel b = some p → ¬ isBtreePage p →
      ∀ r ∈ btreeRows rel, r.blkno ≠ b) ∧
    (∀ b p, pageAt rel b = some p → ¬ isToastPage p →
      ∀ r ∈ toastRows rel, r.blkno ≠ b) := by
  refine ⟨?_, ?_, ?_, ?_, ?_, ?_⟩
  · unfold pg_zs_btree_pages
    rw [if_neg (by simp [hsu]), if_neg (by simp [hset]),
      if_neg (by simp [htmp])]
    rfl
  · unfold pg_zs_toast_pages
    rw [if_neg (by simp [hsu]), if_neg (by simp [hset]),
      if_neg (by simp [htmp])]
    rfl
  · intro r hr
    rcases List.mem_filterMap.mp hr with ⟨b, hbmem, hvis⟩
    have := btreeVisit_blkno rel b r hvis
    rw [this]
    exact ((mem_scanRange rel b).mp hbmem).1
  · intro r hr
    rcases List.mem_filterMap.mp hr with ⟨b, hbmem, hvis⟩
    have := toastVisit_blkno rel b r hvis
    rw [this]
    exact ((mem_scanRange rel b).mp hbmem).1
  · intro b p hp hnbt r hr hbe
    rcases List.mem_filterMap.mp hr with ⟨b2, _, hvis⟩
    have hb2 := btreeVisit_blkno rel b2 r hvis
    rw [hbe] at hb2
    rw [← hb2] at hvis
    rw [btreeVisit_none rel b p hp hnbt] at hvis
    cases hvis
  · intro b p hp hnt r hr hbe
    rcases List.mem_filterMap.mp hr with ⟨b2, _, hvis⟩
    have hb2 := toastVisit_blkno rel b2 r hvis
    rw [hbe] at hb2
    rw [← hb2] at hvis
    rw [toastVisit_none rel b p hp hnt] at hvis
    cases hvis

/-- Witness for C9: on the concrete relation both scans succeed, every
emitted row has blkno at least 1, and the non-matching free page at
block 5 yields no row. -/
theorem scans_skip_nonmatching_pages_witness :
    isErr (pg_zs_btree_pages ctxW relW).1 = false ∧
    isErr (pg_zs_toast_pages ctxW relW).1 = false ∧
    (btreeRows relW).all (fun r => decide (1 ≤ r.blkno)) = true ∧
    (toastRows relW).all (fun r => decide (1 ≤ r.blkno)) = true ∧
    (btreeRows relW).all (fun r => decide (r.blkno ≠ 5)) = true := by
  have h := scans_skip_nonmatching_pages ctxW relW rfl rfl rfl
  refine ⟨h.1, h.2.1, ?_, ?_, ?_⟩
  · rw [List.all_eq_true]
    intro r hr
    exact decide_eq_true (h.2.2.1 r hr)
  · rw [List.all_eq_true]
    intro r hr
    exact decide_eq_true (h.2.2.2.1 r hr)
  · rw [List.all_eq_true]
    intro r hr
    exact decide_eq_true (h.2.2.2.2.1 5 page5W (by decide) (by decide) r hr)

/-- Claim C10: pointing pg_zs_dump_attstreams at a readable page that is
not an attribute-stream leaf (wrong special size, wrong trailer tag, the
meta-attribute tree, or an internal page) returns SQL NULL — no error —
and its trace unlocks the page and closes the relation. -/
theorem dump_attstreams_null_on_non_leaf (ctx : CallCtx) (rel : ZSRel)
    (blkno : Nat) (p : Page) (hsu : ctx.superuser = true)
    (hset : ctx.setOK = true) (htmp : rel.isOtherTemp = false)
    (hp : pageAt rel blkno = some p) (hno : ¬ isAttLeafPage p) :
    (pg_zs_dump_attstreams ctx rel blkno).1 = .ok none ∧
    (pg_zs_dump_attstreams ctx rel blkno).2 =
      [Ev.check, Ev.read blkno, Ev.lock blkno, Ev.unlock blkno,
        Ev.closeRel] := by
  have hred : pg_zs_dump_attstreams ctx rel blkno =
      dumpAttStreamsStep rel blkno (some p) := by
    unfold pg_zs_dump_attstreams
    rw [if_neg (by simp [hsu]), if_neg (by simp [hset]),
      if_neg (by simp [htmp]), hp]
  rw [hred]
  simp only [dumpAttStreamsStep]
  by_cases h1 : pageSpecialSize p ≠ alignedSizeOfZSBtreePageTrailer
  · rw [if_pos h1]
    exact ⟨rfl, rfl⟩
  · rw [if_neg h1]
    have hcond : p.btreeTrailer.zs_page_id ≠ ZS_BTREE_PAGE_ID ∨
        p.btreeTrailer.zs_attno = ZS_META_ATTRIBUTE_NUM ∨
        p.btreeTrailer.zs_level ≠ 0 := by
      by_contra hc
      push_neg at hc
      exact hno ⟨by simpa using h1, hc.1, hc.2.1, hc.2.2⟩
    rw [if_pos hcond]
    exact ⟨rfl, rfl⟩

/-- Witness for C10: the concrete internal page at block 3 yields SQL
NULL with the unlock-then-close trace. -/
theorem dump_attstreams_null_on_non_leaf_witness :
    (pg_zs_dump_attstreams ctxW relW 3).1 = .ok none ∧
    (pg_zs_dump_attstreams ctxW relW 3).2 =
      [Ev.check, Ev.read 3, Ev.lock 3, Ev.unlock 3, Ev.closeRel] :=
  dump_attstreams_null_on_non_leaf ctxW relW 3 page3W rfl rfl rfl
    (by decide) (by decide)

end ZedStoreInspect
